import Mathlib

/-!
# Verification of the trilogy query-construction and execution core

A shallow embedding of the criteria normalizer, query assembler
(`buildWhere` / `buildOrder`), execution router (`runQuery`) and the
registry-level model management (`Trilogy.model`, `hasModel`, `dropModel`)
of the trilogy data-mapping layer, together with proofs of the spec's
claims about them.

JavaScript runtime values are embedded as the inductive `Value`; throwing
code is embedded in `Except String`; the side effects of the embedded
execution path (pool acquisition/release, statement execution, persistence)
are recorded in an explicit event trace.
-/

namespace Trilogy

/-- JavaScript runtime values, as far as the criteria language and the
embedded engine's results need them. -/
inductive Value where
  | vUndefined : Value
  | vNull : Value
  | vBool (b : Bool) : Value
  | vNum (n : Int) : Value
  | vStr (s : String) : Value
  | vArr (xs : List Value) : Value
  | vObj (fields : List (String × Value)) : Value

/-- JavaScript `typeof`. Arrays, plain objects and `null` all report
`"object"`. -/
def typeof : Value → String
  | .vUndefined => "undefined"
  | .vNull => "object"
  | .vBool _ => "boolean"
  | .vNum _ => "number"
  | .vStr _ => "string"
  | .vArr _ => "object"
  | .vObj _ => "object"

/-- `util.isString`. -/
def isString : Value → Bool
  | .vStr _ => true
  | _ => false

/-- `util.isNumber`. -/
def isNumber : Value → Bool
  | .vNum _ => true
  | _ => false

/-- `util.isObject`: a plain object (constructor `Object`), so arrays and
`null` are excluded. -/
def isObject : Value → Bool
  | .vObj _ => true
  | _ => false

/-- `isWhereTuple`: an array of length 2 or 3 whose first element is a
string. -/
def isWhereTuple : Value → Bool
  | .vArr xs =>
      (xs.length == 2 || xs.length == 3) &&
        (match xs with
          | .vStr _ :: _ => true
          | _ => false)
  | _ => false

/-- `isWhereMultiple`: an array each of whose elements is a where-tuple or a
plain object. -/
def isWhereMultiple : Value → Bool
  | .vArr xs => xs.all fun x => isWhereTuple x || isObject x
  | _ => false

/-- `isValidWhere`: tuple, object, or list of tuples-or-objects. -/
def isValidWhere (w : Value) : Bool :=
  isWhereTuple w || isObject w || isWhereMultiple w

mutual
/-- `normalizeCriteria`. The source checks `isWhereTuple` first (length-2
tuples become single-entry objects, length-3 tuples pass through), then
`isWhereMultiple` (element-wise recursion via `map`), and returns the input
unchanged in both remaining branches (the `isObject` branch and the final
fall-through), so every non-array input is returned as-is. -/
def normalizeCriteria : Value → Value
  | .vArr xs =>
      if isWhereTuple (.vArr xs) then
        match xs with
        | [.vStr c, v] => .vObj [(c, v)]
        | _ => .vArr xs
      else if isWhereMultiple (.vArr xs) then
        .vArr (normalizeList xs)
      else
        .vArr xs
  | w => w

/-- Element-wise `normalizeCriteria`, i.e. `where.map(normalizeCriteria)`. -/
def normalizeList : List Value → List Value
  | [] => []
  | x :: xs => normalizeCriteria x :: normalizeList xs
end

theorem normalizeList_eq_map (xs : List Value) :
    normalizeList xs = xs.map normalizeCriteria := by
  induction xs with
  | nil => rfl
  | cons x xs ih => simp [normalizeList, ih]

/-- A where-tuple is an array `[col, v]` or `[col, op, v]` with a string
first element. -/
theorem isWhereTuple_shape {x : Value} (h : isWhereTuple x = true) :
    (∃ c v, x = .vArr [.vStr c, v]) ∨ (∃ c o v, x = .vArr [.vStr c, o, v]) := by
  cases x with
  | vArr xs =>
    match xs with
    | [] => simp [isWhereTuple] at h
    | [a] => simp [isWhereTuple] at h
    | .vStr c :: b :: [] => exact Or.inl ⟨c, b, rfl⟩
    | .vStr c :: b :: d :: [] => exact Or.inr ⟨c, b, d, rfl⟩
    | .vStr c :: b :: d :: e :: rest => simp [isWhereTuple] at h
    | .vUndefined :: b :: rest => simp [isWhereTuple] at h
    | .vNull :: b :: rest => simp [isWhereTuple] at h
    | .vBool _ :: b :: rest => simp [isWhereTuple] at h
    | .vNum _ :: b :: rest => simp [isWhereTuple] at h
    | .vArr _ :: b :: rest => simp [isWhereTuple] at h
    | .vObj _ :: b :: rest => simp [isWhereTuple] at h
  | vUndefined => simp [isWhereTuple] at h
  | vNull => simp [isWhereTuple] at h
  | vBool b => simp [isWhereTuple] at h
  | vNum n => simp [isWhereTuple] at h
  | vStr s => simp [isWhereTuple] at h
  | vObj f => simp [isWhereTuple] at h

theorem normalizeCriteria_tuple2 (c : String) (v : Value) :
    normalizeCriteria (.vArr [.vStr c, v]) = .vObj [(c, v)] := by
  simp [normalizeCriteria, isWhereTuple]

theorem normalizeCriteria_tuple3 (c : String) (o v : Value) :
    normalizeCriteria (.vArr [.vStr c, o, v]) = .vArr [.vStr c, o, v] := by
  simp [normalizeCriteria, isWhereTuple]

theorem normalizeCriteria_nonarr {w : Value} (h : ∀ xs, w ≠ .vArr xs) :
    normalizeCriteria w = w := by
  cases w with
  | vArr xs => exact absurd rfl (h xs)
  | vUndefined => rfl
  | vNull => rfl
  | vBool b => rfl
  | vNum n => rfl
  | vStr s => rfl
  | vObj f => rfl

theorem normalizeCriteria_multiple {xs : List Value}
    (hT : isWhereTuple (.vArr xs) = false)
    (hM : isWhereMultiple (.vArr xs) = true) :
    normalizeCriteria (.vArr xs) = .vArr (xs.map normalizeCriteria) := by
  simp [normalizeCriteria, hT, hM, normalizeList_eq_map]

theorem normalizeCriteria_arr_invalid {xs : List Value}
    (hT : isWhereTuple (.vArr xs) = false)
    (hM : isWhereMultiple (.vArr xs) = false) :
    normalizeCriteria (.vArr xs) = .vArr xs := by
  simp [normalizeCriteria, hT, hM]

/-- Normalizing a tuple-or-object yields a tuple-or-object again. -/
theorem normalize_preserves_tupleOrObj {x : Value}
    (h : (isWhereTuple x || isObject x) = true) :
    (isWhereTuple (normalizeCriteria x) || isObject (normalizeCriteria x)) = true := by
  rcases Bool.or_eq_true_iff.mp h with hT | hO
  · rcases isWhereTuple_shape hT with ⟨c, v, rfl⟩ | ⟨c, o, v, rfl⟩
    · rw [normalizeCriteria_tuple2]; rfl
    · rw [normalizeCriteria_tuple3]; exact h
  · cases x with
    | vObj f => rfl
    | vUndefined => simp [isObject] at hO
    | vNull => simp [isObject] at hO
    | vBool b => simp [isObject] at hO
    | vNum n => simp [isObject] at hO
    | vStr s => simp [isObject] at hO
    | vArr xs => simp [isObject] at hO

/-- Normalizing a tuple-or-object never yields a string. -/
theorem normalize_ne_vStr {x : Value}
    (h : (isWhereTuple x || isObject x) = true) (s : String) :
    normalizeCriteria x ≠ .vStr s := by
  rcases Bool.or_eq_true_iff.mp h with hT | hO
  · rcases isWhereTuple_shape hT with ⟨c, v, rfl⟩ | ⟨c, o, v, rfl⟩
    · rw [normalizeCriteria_tuple2]; intro hcon; cases hcon
    · rw [normalizeCriteria_tuple3]; intro hcon; cases hcon
  · cases x with
    | vObj f => intro hcon; cases hcon
    | vUndefined => simp [isObject] at hO
    | vNull => simp [isObject] at hO
    | vBool b => simp [isObject] at hO
    | vNum n => simp [isObject] at hO
    | vStr s => simp [isObject] at hO
    | vArr xs => simp [isObject] at hO

/-- An element-wise normalized where-multiple is never tuple-shaped: its
first element (if any) is an object or an array, never a string. -/
theorem isWhereTuple_map_false {xs : List Value}
    (hM : isWhereMultiple (.vArr xs) = true) :
    isWhereTuple (.vArr (xs.map normalizeCriteria)) = false := by
  cases xs with
  | nil => rfl
  | cons x rest =>
    have hx : (isWhereTuple x || isObject x) = true := by
      simp only [isWhereMultiple, List.all_cons, Bool.and_eq_true] at hM
      exact hM.1
    have hne := normalize_ne_vStr hx
    cases hnx : normalizeCriteria x with
    | vStr s => exact absurd hnx (hne s)
    | vUndefined => simp [isWhereTuple, hnx]
    | vNull => simp [isWhereTuple, hnx]
    | vBool b => simp [isWhereTuple, hnx]
    | vNum n => simp [isWhereTuple, hnx]
    | vArr ys => simp [isWhereTuple, hnx]
    | vObj f => simp [isWhereTuple, hnx]

theorem isWhereMultiple_map {xs : List Value}
    (hM : isWhereMultiple (.vArr xs) = true) :
    isWhereMultiple (.vArr (xs.map normalizeCriteria)) = true := by
  simp only [isWhereMultiple, List.all_eq_true, List.mem_map] at hM ⊢
  rintro y ⟨x, hx, rfl⟩
  exact normalize_preserves_tupleOrObj (hM x hx)

/-- C1: criteria normalization is idempotent: for every criteria value,
normalizing twice equals normalizing once. -/
theorem normalizeCriteria_idempotent (w : Value) :
    normalizeCriteria (normalizeCriteria w) = normalizeCriteria w := by
  have aux : ∀ (n : Nat) (w : Value), sizeOf w ≤ n →
      normalizeCriteria (normalizeCriteria w) = normalizeCriteria w := by
    intro n
    induction n with
    | zero =>
      intro w hw
      cases w <;> simp_arith at hw
    | succ n ih =>
      intro w hw
      cases w with
      | vArr xs =>
        by_cases hT : isWhereTuple (.vArr xs) = true
        · rcases isWhereTuple_shape hT with ⟨c, v, h⟩ | ⟨c, o, v, h⟩
          · rw [h, normalizeCriteria_tuple2]
            rfl
          · rw [h, normalizeCriteria_tuple3, normalizeCriteria_tuple3]
        · have hT' : isWhereTuple (.vArr xs) = false := Bool.eq_false_iff.mpr hT
          by_cases hM : isWhereMultiple (.vArr xs) = true
          · rw [normalizeCriteria_multiple hT' hM]
            rw [normalizeCriteria_multiple (isWhereTuple_map_false hM)
              (isWhereMultiple_map hM)]
            congr 1
            rw [List.map_map]
            apply List.map_congr_left
            intro x hx
            have h1 : sizeOf x < sizeOf xs := List.sizeOf_lt_of_mem hx
            have h2 : sizeOf (Value.vArr xs) = 1 + sizeOf xs := by
              simp
            exact ih x (by omega)
          · have hM' : isWhereMultiple (.vArr xs) = false := Bool.eq_false_iff.mpr hM
            rw [normalizeCriteria_arr_invalid hT' hM',
              normalizeCriteria_arr_invalid hT' hM']
      | vUndefined => rfl
      | vNull => rfl
      | vBool b => rfl
      | vNum n => rfl
      | vStr s => rfl
      | vObj f => rfl
  exact aux (sizeOf w) w le_rfl

/-- C4: `normalizeCriteria` maps a 2-tuple `(column, value)` to the
single-entry object `{column: value}`, passes a 3-tuple through unchanged,
normalizes a list element-wise preserving order, and — because the
tuple-shape check runs before the generic-list check — every tuple-shaped
array is handled by the tuple rules, never by the element-wise list rule. -/
theorem normalizeCriteria_shapes :
    (∀ (c : String) (v : Value),
        normalizeCriteria (.vArr [.vStr c, v]) = .vObj [(c, v)]) ∧
    (∀ (c : String) (o v : Value),
        normalizeCriteria (.vArr [.vStr c, o, v]) = .vArr [.vStr c, o, v]) ∧
    (∀ xs : List Value, isWhereTuple (.vArr xs) = false →
        isWhereMultiple (.vArr xs) = true →
        normalizeCriteria (.vArr xs) = .vArr (xs.map normalizeCriteria)) ∧
    (∀ xs : List Value, isWhereTuple (.vArr xs) = true →
        (∃ c v, xs = [.vStr c, v] ∧
          normalizeCriteria (.vArr xs) = .vObj [(c, v)]) ∨
        (xs.length = 3 ∧ normalizeCriteria (.vArr xs) = .vArr xs)) := by
  refine ⟨normalizeCriteria_tuple2, normalizeCriteria_tuple3,
    fun xs hT hM => normalizeCriteria_multiple hT hM, fun xs hT => ?_⟩
  rcases isWhereTuple_shape hT with ⟨c, v, h⟩ | ⟨c, o, v, h⟩
  · cases h
    exact Or.inl ⟨c, v, rfl, normalizeCriteria_tuple2 c v⟩
  · cases h
    exact Or.inr ⟨rfl, normalizeCriteria_tuple3 c o v⟩

/-- Witness for C4 at concrete inputs: a 2-tuple, a 3-tuple, a list of one
object, and a 2-element tuple-shaped array of primitives (which is
classified as a tuple, not a list). -/
theorem normalizeCriteria_shapes_witness :
    normalizeCriteria (.vArr [.vStr "name", .vStr "alice"])
      = .vObj [("name", .vStr "alice")] ∧
    normalizeCriteria (.vArr [.vStr "age", .vStr ">", .vNum 21])
      = .vArr [.vStr "age", .vStr ">", .vNum 21] ∧
    normalizeCriteria (.vArr [.vObj [("x", .vNum 0)]])
      = .vArr ([Value.vObj [("x", .vNum 0)]].map normalizeCriteria) ∧
    ((∃ c v, [Value.vStr "a", Value.vStr "b"] = [.vStr c, v] ∧
        normalizeCriteria (.vArr [.vStr "a", .vStr "b"]) = .vObj [(c, v)]) ∨
      (([Value.vStr "a", Value.vStr "b"].length = 3) ∧
        normalizeCriteria (.vArr [.vStr "a", .vStr "b"])
          = .vArr [.vStr "a", .vStr "b"])) :=
  ⟨normalizeCriteria_shapes.1 "name" (.vStr "alice"),
    normalizeCriteria_shapes.2.1 "age" (.vStr ">") (.vNum 21),
    normalizeCriteria_shapes.2.2.1 [Value.vObj [("x", .vNum 0)]] rfl rfl,
    normalizeCriteria_shapes.2.2.2 [Value.vStr "a", Value.vStr "b"] rfl⟩

/-! ## Query assembler -/

/-- The single-quote character, used to build SQL-ish message and marker
strings. -/
def sq : String := String.mk [Char.ofNat 39]

/-- Modelled from the spec: `castValue` (from the repository's
schema-helpers module, not present in the sources) is the single
value-casting function every terminal criteria value passes through; it
casts booleans to 0/1 and passes other scalar values through (date
serialization is outside this model's value universe). -/
def castValue : Value → Value
  | .vBool b => .vNum (if b then 1 else 0)
  | v => v

/-- One WHERE clause appended to a knex query builder. -/
inductive WhereClauseOp where
  | whereEq (col v : Value) : WhereClauseOp
  | whereCmp (col o v : Value) : WhereClauseOp
  | whereObj (fields : List (String × Value)) : WhereClauseOp

/-- One ORDER BY clause appended to a knex query builder. -/
inductive OrderClauseOp where
  | orderBy (col : Value) : OrderClauseOp
  | orderBy2 (col dir : Value) : OrderClauseOp
  | orderByRaw (sql : String) : OrderClauseOp

/-- The knex query builder, abstracted as the ordered lists of WHERE and
ORDER BY clauses applied to it. -/
structure QueryBuilder where
  whereClauses : List WhereClauseOp
  orderClauses : List OrderClauseOp

def QueryBuilder.pushWhere (b : QueryBuilder) (c : WhereClauseOp) :
    QueryBuilder :=
  { b with whereClauses := b.whereClauses ++ [c] }

def QueryBuilder.pushOrder (b : QueryBuilder) (c : OrderClauseOp) :
    QueryBuilder :=
  { b with orderClauses := b.orderClauses ++ [c] }

/-- The message of the `invariant(false, ...)` thrown for an invalid
where-clause shape: it names the JavaScript `typeof` of the received
value. -/
def invalidWhereMsg (w : Value) : String :=
  "invalid where clause type: " ++ sq ++ typeof w ++ sq

mutual
/-- `buildWhere`. The source returns the builder unchanged for
`undefined`; then checks `isWhereTuple` (the guard forces length 2 or 3
with a string head, so the two tuple patterns below are exhaustive for
tuple-shaped arrays, and any other array falls past the tuple branch);
then, only at the top level (`inner` false), folds a where-multiple
element-wise with `inner := true`; then handles plain objects (mapping
`castValue` over the values); and otherwise throws
`invariant(false, "invalid where clause type: ...")`. Arrays are not
plain objects under `util.isObject`, so a non-tuple array that fails the
multiple check (or appears nested) reaches the `invariant`. The last
positional element of a tuple is passed through `castValue` before
binding. -/
def buildWhere (b : QueryBuilder) (w : Value) (inner : Bool) :
    Except String QueryBuilder :=
  match w with
  | .vUndefined => .ok b
  | .vArr [.vStr c, v] =>
      .ok (b.pushWhere (.whereEq (.vStr c) (castValue v)))
  | .vArr [.vStr c, o, v] =>
      .ok (b.pushWhere (.whereCmp (.vStr c) o (castValue v)))
  | .vArr xs =>
      if !inner && isWhereMultiple (.vArr xs) then
        buildWhereList b xs
      else
        .error (invalidWhereMsg (.vArr xs))
  | .vObj fields =>
      .ok (b.pushWhere (.whereObj (fields.map fun p => (p.1, castValue p.2))))
  | w => .error (invalidWhereMsg w)

/-- The `where.reduce((acc, clause) => buildWhere(acc, clause, true), b)`
fold over a where-multiple; a thrown error propagates out of the fold. -/
def buildWhereList (b : QueryBuilder) : List Value → Except String QueryBuilder
  | [] => .ok b
  | x :: xs => do
      let b2 ← buildWhere b x true
      buildWhereList b2 xs
end

/-- `buildOrder`: the string `random` compiles to `orderByRaw("RANDOM()")`,
any other string to `orderBy`, a 1-array to `orderBy(col)`, a 2-array to
`orderBy(col, dir)`, and every other shape (arrays of length 0 or ≥ 3 and
non-string non-array values) falls through to `return partial` — the
builder unchanged, with no error. -/
def buildOrder (b : QueryBuilder) (order : Value) : QueryBuilder :=
  match order with
  | .vStr s =>
      if s = "random" then b.pushOrder (.orderByRaw "RANDOM()")
      else b.pushOrder (.orderBy (.vStr s))
  | .vArr [x] => b.pushOrder (.orderBy x)
  | .vArr [x, y] => b.pushOrder (.orderBy2 x y)
  | .vArr _ => b
  | _ => b

/-- C5: `buildWhere` on `undefined` criteria is a no-op returning the
builder unchanged; on any value that is not a valid where shape (not a
tuple, not an object, not a list of tuples-or-objects) and not
`undefined`, it raises the invalid-criteria error naming the received
value's `typeof`. -/
theorem buildWhere_undefined_and_invalid :
    (∀ (b : QueryBuilder) (inner : Bool),
        buildWhere b .vUndefined inner = .ok b) ∧
    (∀ (b : QueryBuilder) (w : Value), isValidWhere w = false →
        w ≠ .vUndefined →
        buildWhere b w false =
          .error ("invalid where clause type: " ++ sq ++ typeof w ++ sq)) := by
  constructor
  · intro b inner
    rfl
  · intro b w hv hu
    cases w with
    | vUndefined => exact absurd rfl hu
    | vNull => rfl
    | vBool bb => rfl
    | vNum n => rfl
    | vStr s => rfl
    | vObj f => simp [isValidWhere, isObject] at hv
    | vArr xs =>
      have hT : isWhereTuple (.vArr xs) = false := by
        simp only [isValidWhere, Bool.or_eq_false_iff] at hv
        exact hv.1.1
      have hM : isWhereMultiple (.vArr xs) = false := by
        simp only [isValidWhere, Bool.or_eq_false_iff] at hv
        exact hv.2
      match xs, hT with
      | [.vStr c, v], hT => simp [isWhereTuple] at hT
      | [.vStr c, o, v], hT => simp [isWhereTuple] at hT
      | [], _ => simp [isWhereMultiple] at hM
      | [.vUndefined], _ => simp [buildWhere, hM, invalidWhereMsg]
      | [.vNull], _ => simp [buildWhere, hM, invalidWhereMsg]
      | [.vBool _], _ => simp [buildWhere, hM, invalidWhereMsg]
      | [.vNum _], _ => simp [buildWhere, hM, invalidWhereMsg]
      | [.vStr _], _ => simp [buildWhere, hM, invalidWhereMsg]
      | [.vArr _], _ => simp [buildWhere, hM, invalidWhereMsg]
      | [.vObj _], _ => simp [buildWhere, hM, invalidWhereMsg]
      | .vUndefined :: a :: rest, _ => simp [buildWhere, hM, invalidWhereMsg]
      | .vNull :: a :: rest, _ => simp [buildWhere, hM, invalidWhereMsg]
      | .vBool _ :: a :: rest, _ => simp [buildWhere, hM, invalidWhereMsg]
      | .vNum _ :: a :: rest, _ => simp [buildWhere, hM, invalidWhereMsg]
      | .vArr _ :: a :: rest, _ => simp [buildWhere, hM, invalidWhereMsg]
      | .vObj _ :: a :: rest, _ => simp [buildWhere, hM, invalidWhereMsg]
      | .vStr c :: a :: b2 :: c2 :: rest, _ =>
        simp [buildWhere, hM, invalidWhereMsg]

/-- Witness for C5: an empty builder is returned unchanged for `undefined`,
and the number `42` as criteria raises the error naming type `number`. -/
theorem buildWhere_undefined_and_invalid_witness :
    buildWhere ⟨[], []⟩ .vUndefined false = .ok ⟨[], []⟩ ∧
    buildWhere ⟨[], []⟩ (.vNum 42) false =
      .error ("invalid where clause type: " ++ sq ++ typeof (.vNum 42) ++ sq) :=
  ⟨buildWhere_undefined_and_invalid.1 ⟨[], []⟩ false,
    buildWhere_undefined_and_invalid.2 ⟨[], []⟩ (.vNum 42) rfl
      (by intro h; cases h)⟩

/-- C7: `buildOrder` maps the literal string `random` to the engine-native
`orderByRaw("RANDOM()")` (not a value ordering), accepts a column-name
string and 1- or 2-element arrays, and on every other shape — the empty
array, arrays of length ≥ 3, and non-string non-array values — returns
the builder unchanged without raising. -/
theorem buildOrder_shapes :
    (∀ b : QueryBuilder,
        buildOrder b (.vStr "random") = b.pushOrder (.orderByRaw "RANDOM()")) ∧
    (∀ (b : QueryBuilder) (s : String), s ≠ "random" →
        buildOrder b (.vStr s) = b.pushOrder (.orderBy (.vStr s))) ∧
    (∀ (b : QueryBuilder) (x : Value),
        buildOrder b (.vArr [x]) = b.pushOrder (.orderBy x)) ∧
    (∀ (b : QueryBuilder) (x y : Value),
        buildOrder b (.vArr [x, y]) = b.pushOrder (.orderBy2 x y)) ∧
    (∀ (b : QueryBuilder) (xs : List Value),
        xs.length = 0 ∨ 3 ≤ xs.length → buildOrder b (.vArr xs) = b) ∧
    (∀ (b : QueryBuilder) (order : Value), isString order = false →
        (∀ xs, order ≠ .vArr xs) → buildOrder b order = b) := by
  refine ⟨fun b => by simp [buildOrder], fun b s hs => by simp [buildOrder, hs],
    fun b x => rfl, fun b x y => rfl, fun b xs hlen => ?_, fun b order hs ha => ?_⟩
  · match xs, hlen with
    | [], _ => rfl
    | x :: y :: z :: rest, _ => rfl
    | [x], hlen => simp at hlen
    | [x, y], hlen => simp at hlen
  · cases order with
    | vArr xs => exact absurd rfl (ha xs)
    | vStr s => simp [isString] at hs
    | vUndefined => rfl
    | vNull => rfl
    | vBool bb => rfl
    | vNum n => rfl
    | vObj f => rfl

/-- Witness for C7 at concrete inputs: the random sentinel, a plain column
string, singleton and pair arrays, the empty array, a 3-array, and a
number, against an empty builder. -/
theorem buildOrder_shapes_witness :
    buildOrder ⟨[], []⟩ (.vStr "random")
      = QueryBuilder.pushOrder ⟨[], []⟩ (.orderByRaw "RANDOM()") ∧
    buildOrder ⟨[], []⟩ (.vStr "age")
      = QueryBuilder.pushOrder ⟨[], []⟩ (.orderBy (.vStr "age")) ∧
    buildOrder ⟨[], []⟩ (.vArr [.vStr "age"])
      = QueryBuilder.pushOrder ⟨[], []⟩ (.orderBy (.vStr "age")) ∧
    buildOrder ⟨[], []⟩ (.vArr [.vStr "age", .vStr "desc"])
      = QueryBuilder.pushOrder ⟨[], []⟩ (.orderBy2 (.vStr "age") (.vStr "desc")) ∧
    buildOrder ⟨[], []⟩ (.vArr []) = (⟨[], []⟩ : QueryBuilder) ∧
    buildOrder ⟨[], []⟩ (.vArr [.vStr "a", .vStr "b", .vStr "c"])
      = (⟨[], []⟩ : QueryBuilder) ∧
    buildOrder ⟨[], []⟩ (.vNum 7) = (⟨[], []⟩ : QueryBuilder) :=
  ⟨buildOrder_shapes.1 ⟨[], []⟩,
    buildOrder_shapes.2.1 ⟨[], []⟩ "age" (by decide),
    buildOrder_shapes.2.2.1 ⟨[], []⟩ (.vStr "age"),
    buildOrder_shapes.2.2.2.1 ⟨[], []⟩ (.vStr "age") (.vStr "desc"),
    buildOrder_shapes.2.2.2.2.1 ⟨[], []⟩ [] (Or.inl rfl),
    buildOrder_shapes.2.2.2.2.1 ⟨[], []⟩ [.vStr "a", .vStr "b", .vStr "c"]
      (Or.inr (by simp)),
    buildOrder_shapes.2.2.2.2.2 ⟨[], []⟩ (.vNum 7) rfl
      (by intro xs h; cases h)⟩

/-! ## Execution router -/

/-- One result set of the embedded engine: `{columns, values}`. -/
structure SqlResultSet where
  columns : List String
  values : List (List Value)

/-- The embedded engine's tabular response: a list of result sets; only the
first is consumed. -/
abbrev SqlJsResponse := List SqlResultSet

/-- JavaScript object-key assignment `line[k] = v`: overwrite in place if
the key exists, append otherwise. -/
def objSet : List (String × Value) → String → Value → List (String × Value)
  | [], k, v => [(k, v)]
  | (k0, v0) :: rest, k, v =>
      if k0 = k then (k0, v) :: rest else (k0, v0) :: objSet rest k v

/-- The inner loop of `parseResponse`: for every column index `j`,
`line[columns[j]] = values[i][j]` (missing row entries read as
`undefined`). -/
def parseLine (columns : List String) (row : List Value) :
    List (String × Value) :=
  (List.range columns.length).foldl
    (fun line j => objSet line (columns.getD j "") (row.getD j .vUndefined)) []

/-- `parseResponse`: an empty response yields `[]`; otherwise the first
result set's rows are turned into column-name → value records, in row
order. -/
def parseResponse (contents : SqlJsResponse) :
    List (List (String × Value)) :=
  match contents with
  | [] => []
  | rs :: _ => rs.values.map (parseLine rs.columns)

/-- JavaScript `toLowerCase` (over the ASCII range the SQL text uses). -/
def toLowerStr (s : String) : String :=
  String.mk (s.data.map Char.toLower)

/-- `str.split(' ', 1)[0]`: the characters before the first space (the
whole string if it has no space, empty if it starts with one). -/
def firstWord : List Char → List Char
  | [] => []
  | c :: rest => if c = Char.ofNat 32 then [] else c :: firstWord rest

/-- `getQueryAction`: the first space-separated word of the rendered SQL,
lowercased. -/
def getQueryAction (str : String) : String :=
  toLowerStr (String.mk (firstWord str.data))

/-- JavaScript `String.prototype.includes` on character lists. -/
def listIncludes : List Char → List Char → Bool
  | [], pat => pat.isEmpty
  | c :: rest, pat => pat.isPrefixOf (c :: rest) || listIncludes rest pat

/-- JavaScript `s.includes(pat)`. -/
def strIncludes (s pat : String) : Bool :=
  listIncludes s.data pat.data

/-- The marker substring whose presence in a (lowercased) rendered query
makes the embedded router collapse the parsed rows to a boolean:
`from sqlite_master where type = 'table'`. -/
def HAS_TABLE_SUBSTRING : String :=
  "from sqlite_master where type = " ++ sq ++ "table" ++ sq

/-- The sql.js database handle held by the size-one pool, abstracted into
the outcomes of the three operations the router uses on it: `exec` and
`run` either return or throw, and `getRowsModified` reads the
modified-row counter. -/
structure EmbeddedDb where
  exec : String → Except String SqlJsResponse
  run : String → Except String Unit
  rowsModified : Int

/-- The registry handle as the router sees it: the backend mode flag, the
optional verbose/logging callback (which may throw), and — in embedded
mode — the pooled database handle. -/
structure Instance where
  isNative : Bool
  verbose : Option (String → Except String Unit)
  db : EmbeddedDb

/-- A query object: its rendered SQL text and, for native mode, the result
of awaiting it. -/
structure Query where
  sql : String
  nativeResult : Except String Value

/-- `runQuery`'s options. Modelled from the spec: `options.model`'s
on-query hook chain (`model._callHook(Hook.OnQuery, sql)`, from the
repository's model/hooks modules, not present in the sources) runs the
subscribed callbacks sequentially and is abstracted as one call that
either returns or throws; hook errors are not caught by the dispatcher. -/
structure QueryOptions where
  model : Option (String → Except String Unit)
  needResponse : Bool

/-- The value `runQuery` resolves with. -/
inductive QueryResponse where
  | undef : QueryResponse
  | rows (rs : List (List (String × Value))) : QueryResponse
  | boolResp (b : Bool) : QueryResponse
  | count (n : Int) : QueryResponse
  | value (v : Value) : QueryResponse
  | thenable (sql : String) : QueryResponse

/-- The observable effects of one `runQuery` call, in order. -/
inductive Event where
  | verboseCall (sql : String) : Event
  | hookCall (sql : String) : Event
  | acquire : Event
  | dbExec (sql : String) : Event
  | dbRun (sql : String) : Event
  | rowsModifiedRead : Event
  | writeDb : Event
  | release : Event
deriving DecidableEq

/-- JavaScript truthiness. -/
def truthy : Value → Bool
  | .vUndefined => false
  | .vNull => false
  | .vBool b => b
  | .vNum n => n != 0
  | .vStr s => !s.isEmpty
  | _ => true

/-- JavaScript `res.length` as a value (`undefined` where absent). -/
def jsLength : Value → Value
  | .vArr xs => .vNum xs.length
  | .vStr s => .vNum s.length
  | _ => .vUndefined

/-- The native branch of `runQuery`: with `needResponse` the query object
itself is returned (unawaited); otherwise the awaited result is collapsed
to a count — a number passes through, anything else becomes
`res ? res.length : 0`. -/
def nativePhase (q : Query) (opts : QueryOptions) :
    Except String QueryResponse :=
  if opts.needResponse then .ok (.thenable q.sql)
  else
    match q.nativeResult with
    | .error e => .error e
    | .ok res =>
        if isNumber res then .ok (.value res)
        else .ok (.value (if truthy res then jsLength res else .vNum 0))

/-- The embedded branch of `runQuery`: acquire the pooled handle, then
either `exec` and parse (collapsing to a boolean when the lowercased SQL
contains the table-existence marker), or `run` and read the modified-row
counter for insert/update/delete actions only; on success, persist and
release. The source wraps none of this in try/finally, so a thrown
`exec`/`run` error propagates before `writeDatabase` and `pool.release`
ever run — the trace then ends without a `release` event. -/
def embeddedPhase (db : EmbeddedDb) (asString action : String)
    (needResponse : Bool) : Except String QueryResponse × List Event :=
  if needResponse then
    match db.exec asString with
    | .error e => (.error e, [.acquire, .dbExec asString])
    | .ok contents =>
        let response := parseResponse contents
        let r :=
          if strIncludes (toLowerStr asString) HAS_TABLE_SUBSTRING then
            QueryResponse.boolResp (!response.isEmpty)
          else
            QueryResponse.rows response
        (.ok r, [.acquire, .dbExec asString, .writeDb, .release])
  else
    match db.run asString with
    | .error e => (.error e, [.acquire, .dbRun asString])
    | .ok _ =>
        if ["insert", "update", "delete"].contains action then
          (.ok (.count db.rowsModified),
            [.acquire, .dbRun asString, .rowsModifiedRead, .writeDb, .release])
        else
          (.ok .undef, [.acquire, .dbRun asString, .writeDb, .release])

/-- `runQuery`: render the query, call the verbose callback (if
configured) and the model's on-query hook (if a model was passed) — both
unguarded, so a throw there propagates before any execution — then branch
on the backend mode. -/
def runQuery (inst : Instance) (q : Query) (opts : QueryOptions) :
    Except String QueryResponse × List Event :=
  let asString := q.sql
  let action := getQueryAction asString
  let afterCallbacks : Except String QueryResponse × List Event :=
    if inst.isNative then (nativePhase q opts, [])
    else embeddedPhase inst.db asString action opts.needResponse
  let afterHook : Except String QueryResponse × List Event :=
    match opts.model with
    | none => afterCallbacks
    | some hook =>
        match hook asString with
        | .error e => (.error e, [.hookCall asString])
        | .ok _ => (afterCallbacks.1, .hookCall asString :: afterCallbacks.2)
  match inst.verbose with
  | none => afterHook
  | some v =>
      match v asString with
      | .error e => (.error e, [.verboseCall asString])
      | .ok _ => (afterHook.1, .verboseCall asString :: afterHook.2)

/-- An embedded database handle on which every operation succeeds. -/
def okDb : EmbeddedDb :=
  ⟨fun _ => .ok [], fun _ => .ok (), 1⟩

/-- C2 counterexample: with a throwing verbose callback (and likewise with
a throwing on-query hook), `runQuery` rejects with the callback's error
and its trace shows the query was never executed — no pool acquisition, no
statement. So a callback failure does abort the query, refuting the claim
at this input. -/
theorem runQuery_callback_error_counterexample :
    runQuery ⟨false, some fun _ => .error "verbose failure", okDb⟩
        ⟨"delete from users", .ok (.vNum 1)⟩ ⟨none, false⟩
      = (.error "verbose failure", [.verboseCall "delete from users"]) ∧
    runQuery ⟨false, none, okDb⟩ ⟨"delete from users", .ok (.vNum 1)⟩
        ⟨some fun _ => .error "hook failure", false⟩
      = (.error "hook failure", [.hookCall "delete from users"]) :=
  ⟨rfl, rfl⟩

/-- C2 (amended): a failure thrown by the configured verbose/logging
callback or by the on-query hook propagates out of `runQuery` and aborts
the query — the error is returned to the caller, the query is never
executed and no result is produced. -/
theorem runQuery_callback_error_aborts :
    (∀ (inst : Instance) (q : Query) (opts : QueryOptions)
        (v : String → Except String Unit) (e : String),
        inst.verbose = some v → v q.sql = .error e →
        runQuery inst q opts = (.error e, [.verboseCall q.sql])) ∧
    (∀ (inst : Instance) (q : Query) (opts : QueryOptions)
        (hook : String → Except String Unit) (e : String),
        inst.verbose = none → opts.model = some hook →
        hook q.sql = .error e →
        runQuery inst q opts = (.error e, [.hookCall q.sql])) := by
  constructor
  · intro inst q opts v e hv hve
    simp only [runQuery, hv, hve]
  · intro inst q opts hook e hv hm he
    simp only [runQuery, hv, hm, he]

/-- Witness for C2 (amended) at concrete inputs. -/
theorem runQuery_callback_error_aborts_witness :
    runQuery ⟨false, some fun _ => .error "log broke", okDb⟩
        ⟨"select 1", .ok .vNull⟩ ⟨none, true⟩
      = (.error "log broke", [.verboseCall "select 1"]) ∧
    runQuery ⟨false, none, okDb⟩ ⟨"select 1", .ok .vNull⟩
        ⟨some fun _ => .error "hook broke", true⟩
      = (.error "hook broke", [.hookCall "select 1"]) :=
  ⟨runQuery_callback_error_aborts.1
      ⟨false, some fun _ => .error "log broke", okDb⟩
      ⟨"select 1", .ok .vNull⟩ ⟨none, true⟩
      (fun _ => .error "log broke") "log broke" rfl rfl,
    runQuery_callback_error_aborts.2
      ⟨false, none, okDb⟩ ⟨"select 1", .ok .vNull⟩
      ⟨some fun _ => .error "hook broke", true⟩
      (fun _ => .error "hook broke") "hook broke" rfl rfl rfl⟩

/-- C3: at a failing input — an embedded-mode query whose `db.exec`
(respectively `db.run`) throws — the trace contains the pool acquisition
but no release: the source has no try/finally around the
execute/persist/release sequence, so the error propagates past
`pool.release` and the size-one pool stays acquired, contradicting the
release-on-every-exit-path claim. -/
theorem runQuery_exec_throw_skips_release :
    (runQuery
        ⟨false, none,
          ⟨fun _ => .error "no such table: nope",
            fun _ => .error "no such table: nope", 0⟩⟩
        ⟨"select * from nope", .ok .vNull⟩ ⟨none, true⟩
      = (.error "no such table: nope",
          [.acquire, .dbExec "select * from nope"])) ∧
    Event.release ∉
      (runQuery
        ⟨false, none,
          ⟨fun _ => .error "no such table: nope",
            fun _ => .error "no such table: nope", 0⟩⟩
        ⟨"select * from nope", .ok .vNull⟩ ⟨none, true⟩).2 ∧
    Event.acquire ∈
      (runQuery
        ⟨false, none,
          ⟨fun _ => .error "no such table: nope",
            fun _ => .error "no such table: nope", 0⟩⟩
        ⟨"select * from nope", .ok .vNull⟩ ⟨none, true⟩).2 ∧
    (runQuery
        ⟨false, none,
          ⟨fun _ => .error "no such table: nope",
            fun _ => .error "no such table: nope", 0⟩⟩
        ⟨"delete from nope", .ok .vNull⟩ ⟨none, false⟩
      = (.error "no such table: nope",
          [.acquire, .dbRun "delete from nope"])) :=
  ⟨rfl, by decide, by decide, rfl⟩

/-- A concrete embedded handle: reads return one `(name, age)` row, writes
succeed, and the modified-row counter reads 3. -/
def demoDb : EmbeddedDb :=
  ⟨fun _ => .ok [⟨["name", "age"], [[.vStr "alice", .vNum 30]]⟩],
    fun _ => .ok (), 3⟩

/-- C6: in embedded mode without `needResponse`, the statement is run and
the modified-row counter is read and returned exactly when the query's
action (the first word of the rendered SQL, lowercased) is insert, update
or delete; for every other action the response stays `undefined`. With
`needResponse`, a read query (no table-existence marker) is parsed into a
sequence of column-name → value records. -/
theorem runQuery_write_counter_and_read_parse :
    ∀ (inst : Instance) (q : Query),
      inst.isNative = false → inst.verbose = none →
      ((inst.db.run q.sql = .ok () →
        (["insert", "update", "delete"].contains (getQueryAction q.sql)
            = true →
          runQuery inst q ⟨none, false⟩
            = (.ok (.count inst.db.rowsModified),
                [.acquire, .dbRun q.sql, .rowsModifiedRead, .writeDb,
                  .release])) ∧
        (["insert", "update", "delete"].contains (getQueryAction q.sql)
            = false →
          runQuery inst q ⟨none, false⟩
            = (.ok .undef,
                [.acquire, .dbRun q.sql, .writeDb, .release]))) ∧
      (∀ contents : SqlJsResponse, inst.db.exec q.sql = .ok contents →
        strIncludes (toLowerStr q.sql) HAS_TABLE_SUBSTRING = false →
        runQuery inst q ⟨none, true⟩
          = (.ok (.rows (parseResponse contents)),
              [.acquire, .dbExec q.sql, .writeDb, .release]))) := by
  intro inst q hN hV
  refine ⟨fun hRun => ⟨fun hAct => ?_, fun hAct => ?_⟩,
    fun contents hExec hMark => ?_⟩
  · simp only [runQuery, embeddedPhase, hN, hV, hRun, hAct, if_false,
      Bool.false_eq_true, if_true]
  · simp only [runQuery, embeddedPhase, hN, hV, hRun, hAct, if_false,
      Bool.false_eq_true, if_true]
  · simp only [runQuery, embeddedPhase, hN, hV, hExec, hMark, if_false,
      Bool.false_eq_true, if_true]

/-- Witness for C6: an insert returns the counter (3), a create-table
returns `undefined`, and a select with `needResponse` returns the parsed
records. -/
theorem runQuery_write_counter_and_read_parse_witness :
    runQuery ⟨false, none, demoDb⟩
        ⟨"insert into users (name) values (x)", .ok .vNull⟩ ⟨none, false⟩
      = (.ok (.count 3),
          [.acquire, .dbRun "insert into users (name) values (x)",
            .rowsModifiedRead, .writeDb, .release]) ∧
    runQuery ⟨false, none, demoDb⟩
        ⟨"create table users", .ok .vNull⟩ ⟨none, false⟩
      = (.ok .undef,
          [.acquire, .dbRun "create table users", .writeDb, .release]) ∧
    runQuery ⟨false, none, demoDb⟩
        ⟨"select name, age from users", .ok .vNull⟩ ⟨none, true⟩
      = (.ok (.rows [[("name", .vStr "alice"), ("age", .vNum 30)]]),
          [.acquire, .dbExec "select name, age from users", .writeDb,
            .release]) :=
  ⟨((runQuery_write_counter_and_read_parse ⟨false, none, demoDb⟩
      ⟨"insert into users (name) values (x)", .ok .vNull⟩ rfl rfl).1
      rfl).1 (by decide),
    ((runQuery_write_counter_and_read_parse ⟨false, none, demoDb⟩
      ⟨"create table users", .ok .vNull⟩ rfl rfl).1 rfl).2 (by decide),
    (runQuery_write_counter_and_read_parse ⟨false, none, demoDb⟩
      ⟨"select name, age from users", .ok .vNull⟩ rfl rfl).2
      [⟨["name", "age"], [[.vStr "alice", .vNum 30]]⟩] rfl (by decide)⟩

/-- C10: in embedded mode with `needResponse`, whenever the lowercased
rendered SQL contains the table-existence marker substring anywhere, the
parsed rows are collapsed to the boolean "did any rows come back" — this
holds for every query text containing the marker, not only genuine
table-existence checks. -/
theorem runQuery_marker_collapses_to_bool :
    ∀ (inst : Instance) (q : Query) (contents : SqlJsResponse),
      inst.isNative = false → inst.verbose = none →
      inst.db.exec q.sql = .ok contents →
      strIncludes (toLowerStr q.sql) HAS_TABLE_SUBSTRING = true →
      runQuery inst q ⟨none, true⟩
        = (.ok (.boolResp (!(parseResponse contents).isEmpty)),
            [.acquire, .dbExec q.sql, .writeDb, .release]) := by
  intro inst q contents hN hV hExec hMark
  simp only [runQuery, embeddedPhase, hN, hV, hExec, hMark, if_false,
    Bool.false_eq_true, if_true]

/-- A user query whose text merely mentions the marker inside a string
literal. -/
def markerQuerySql : String :=
  "select note from t where note = " ++ sq ++ HAS_TABLE_SUBSTRING ++ sq

/-- Witness for C10: the user query above, though not a table-existence
check, comes back as a boolean rather than its rows. -/
theorem runQuery_marker_collapses_to_bool_witness :
    runQuery ⟨false, none, demoDb⟩ ⟨markerQuerySql, .ok .vNull⟩
        ⟨none, true⟩
      = (.ok (.boolResp true),
          [.acquire, .dbExec markerQuerySql, .writeDb, .release]) :=
  runQuery_marker_collapses_to_bool ⟨false, none, demoDb⟩
    ⟨markerQuerySql, .ok .vNull⟩
    [⟨["name", "age"], [[.vStr "alice", .vNum 30]]⟩] rfl rfl rfl
    (by decide)

/-! ## Registry: model definition, hasModel, dropModel -/

/-- A model instance. Modelled from the spec as far as the Model class
itself goes (the repository's model module is not among the sources): it
owns the table name and schema; nothing else about it is needed for the
registry-level claims. -/
structure Model where
  name : String
  schema : List (String × String)
deriving DecidableEq

/-- The DDL/introspection statements the registry issues. -/
inductive DbOp where
  | hasTable (name : String) : DbOp
  | createTable (name : String) : DbOp
  | timestampTrigger (name : String) : DbOp
  | dropTableIfExists (name : String) : DbOp
deriving DecidableEq

/-- The registry's state: the `_definitions` map (insertion-ordered, keys
unique because a name is registered at most once), the tables existing in
the database, and the log of statements issued so far. -/
structure TrilogyState where
  definitions : List (String × Model)
  tables : List String
  issued : List DbOp
deriving DecidableEq

/-- `Trilogy.model(name, schema)`: if the name is already defined, the
existing instance is returned at once — no table-existence check, no
create-table, no trigger. Otherwise the model is constructed and
registered, the `hasTable` check is issued, the table is created only when
absent, and `createTimestampTrigger` (an external schema helper) runs,
modelled as one issued statement. Native and embedded modes differ only in
how the check/create builders are awaited, not in which are issued. -/
def modelDef (st : TrilogyState) (name : String)
    (schema : List (String × String)) : Model × TrilogyState :=
  match st.definitions.lookup name with
  | some m => (m, st)
  | none =>
      let m : Model := ⟨name, schema⟩
      let st1 := { st with definitions := st.definitions ++ [(name, m)] }
      let tableExists := st1.tables.contains name
      let st2 := { st1 with issued := st1.issued ++ [DbOp.hasTable name] }
      let st3 :=
        if tableExists then st2
        else
          { st2 with tables := st2.tables ++ [name],
                     issued := st2.issued ++ [DbOp.createTable name] }
      (m, { st3 with issued := st3.issued ++ [DbOp.timestampTrigger name] })

/-- `Trilogy.hasModel(name)`: false without SQL when the name was never
defined; otherwise it issues the `hasTable` introspection and returns
whether the table exists. -/
def hasModel (st : TrilogyState) (name : String) : Bool × TrilogyState :=
  if (st.definitions.lookup name).isSome then
    (st.tables.contains name,
      { st with issued := st.issued ++ [DbOp.hasTable name] })
  else (false, st)

/-- `Trilogy.dropModel(name)`: false without SQL when the name was never
defined; otherwise it issues `dropTableIfExists`, removes the table,
deletes the definition and returns true. -/
def dropModel (st : TrilogyState) (name : String) : Bool × TrilogyState :=
  if (st.definitions.lookup name).isSome then
    let st1 :=
      { st with issued := st.issued ++ [DbOp.dropTableIfExists name],
                tables := st.tables.filter (fun t => t != name) }
    (true,
      { st1 with
          definitions := st1.definitions.filter (fun p => p.1 != name) })
  else (false, st)

theorem lookup_append_self (l : List (String × Model)) (k : String)
    (v : Model) (h : l.lookup k = none) :
    (l ++ [(k, v)]).lookup k = some v := by
  induction l with
  | nil => simp [List.lookup]
  | cons p rest ih =>
      cases p with
      | mk k0 v0 =>
        by_cases hk : k = k0
        · subst hk
          simp [List.lookup] at h
        · have hb : (k == k0) = false := beq_false_of_ne hk
          simp only [List.lookup, List.cons_append, hb] at h ⊢
          exact ih h

theorem lookup_filter_ne (l : List (String × Model)) (k : String) :
    (l.filter (fun p => p.1 != k)).lookup k = none := by
  induction l with
  | nil => rfl
  | cons p rest ih =>
      cases p with
      | mk k0 v0 =>
        by_cases hk : k0 = k
        · have hb : ((k0, v0).1 != k) = false := by simp [hk]
          simp only [List.filter, hb]
          exact ih
        · have hb : ((k0, v0).1 != k) = true := by simp [hk]
          have hb2 : (k == k0) = false := beq_false_of_ne (Ne.symm hk)
          simp only [List.filter, hb, List.lookup, hb2]
          exact ih

theorem contains_filter_ne (l : List String) (k : String) :
    (l.filter (fun t => t != k)).contains k = false := by
  induction l with
  | nil => rfl
  | cons x rest ih =>
      by_cases hx : x = k
      · have hb : (x != k) = false := by simp [hx]
        simp only [List.filter, hb]
        exact ih
      · have hb : (x != k) = true := by simp [hx]
        have hb2 : (k == x) = false := beq_false_of_ne (Ne.symm hx)
        simp only [List.filter, hb, List.contains_cons, hb2, ih,
          Bool.or_false]

/-- C8: model definition is idempotent: a second `model()` call with a
name already defined returns the first call's instance and leaves the
registry state untouched — in particular no table-existence check and no
create-table statement are issued. -/
theorem model_idempotent :
    ∀ (st : TrilogyState) (name : String)
      (schema schema2 : List (String × String)),
      modelDef (modelDef st name schema).2 name schema2
        = ((modelDef st name schema).1, (modelDef st name schema).2) := by
  intro st name schema schema2
  cases h : st.definitions.lookup name with
  | some m =>
      simp [modelDef, h]
  | none =>
      have hl :
          (st.definitions ++ [(name, (⟨name, schema⟩ : Model))]).lookup name
            = some ⟨name, schema⟩ := lookup_append_self _ _ _ h
      by_cases hT : name ∈ st.tables
      · simp [modelDef, h, hT, hl]
      · simp [modelDef, h, hT, hl]

/-- C9: `dropModel` on a never-defined name returns false with no SQL
issued and the state unchanged; on a defined name it issues the
drop-table statement, removes the table and the definition, returns true,
and a subsequent `hasModel` on that name returns false. -/
theorem dropModel_behavior :
    ∀ (st : TrilogyState) (name : String),
      (st.definitions.lookup name = none →
        dropModel st name = (false, st)) ∧
      ((st.definitions.lookup name).isSome = true →
        (dropModel st name).1 = true ∧
        (dropModel st name).2.issued
          = st.issued ++ [.dropTableIfExists name] ∧
        (dropModel st name).2.tables.contains name = false ∧
        (dropModel st name).2.definitions.lookup name = none ∧
        hasModel (dropModel st name).2 name
          = (false, (dropModel st name).2)) := by
  intro st name
  constructor
  · intro h
    simp [dropModel, h]
  · intro h
    refine ⟨by simp [dropModel, h], by simp [dropModel, h],
      by simp [dropModel, h, contains_filter_ne st.tables name],
      by simpa [dropModel, h] using lookup_filter_ne st.definitions name,
      ?_⟩
    have hnone : (dropModel st name).2.definitions.lookup name = none := by
      simpa [dropModel, h] using lookup_filter_ne st.definitions name
    simp [hasModel, hnone]

/-- A registry with one defined model `users` whose table exists. -/
def usersState : TrilogyState :=
  ⟨[("users", ⟨"users", [("name", "string")]⟩)], ["users"], []⟩

/-- Witness for C9: dropping the never-defined `posts` is a false no-op;
dropping the defined `users` returns true and `hasModel` then reports
false. -/
theorem dropModel_behavior_witness :
    dropModel usersState "posts" = (false, usersState) ∧
    (dropModel usersState "users").1 = true ∧
    hasModel (dropModel usersState "users").2 "users"
      = (false, (dropModel usersState "users").2) :=
  ⟨(dropModel_behavior usersState "posts").1 rfl,
    ((dropModel_behavior usersState "users").2 rfl).1,
    ((dropModel_behavior usersState "users").2 rfl).2.2.2.2⟩

end Trilogy
